import Mathlib

/-!
Verification of the pixz command-line front end (src/pixz.c) against its
natural-language specification. The C code is shallowly embedded: filenames
are lists of characters, the getopt loop is a fold over the delivered option
sequence, and the stateful parts of main become explicit state passing.
-/

namespace Pixz

/-- Operation modes, from the pixz_op_t enum (pixz.c:7-12). -/
inductive pixz_op_t
  | OP_WRITE
  | OP_READ
  | OP_EXTRACT
  | OP_LIST
deriving DecidableEq

open pixz_op_t

/-- Suffix test from pixz.c:209-212: strcmp(big + strlen(big) - strlen(small), small) == 0.
Whenever strlen(small) is at most strlen(big) the strcmp compares the last
strlen(small) characters of big against small, which is the comparison
embedded here (with truncating Nat subtraction). The pointer arithmetic and
its bounds when small is longer than big are analysed separately through
strsuf_firstReadOffset below. -/
def strsuf (big small : List Char) : Bool :=
  decide (big.drop (big.length - small.length) = small)

/-- Byte offset into big, as a signed integer, of the first byte the strcmp
call in strsuf reads: the pointer big + strlen(big) - strlen(small) sits this
many bytes past the start of big (pixz.c:211). -/
def strsuf_firstReadOffset (big small : List Char) : Int :=
  (big.length : Int) - (small.length : Int)

/-- Every byte the strcmp in strsuf reads from big lies inside the buffer of
big (indices 0 through strlen(big), terminating NUL included) exactly when the
first read offset is non-negative, since strcmp proceeds forward from that
offset and stops at or before the NUL at index strlen(big). This predicate
states that in-bounds condition. -/
def strsuf_inBounds (big small : List Char) : Bool :=
  decide (0 ≤ strsuf_firstReadOffset big small)

/-- subsuf from pixz.c:214-223: if suf1 is a suffix of the input, replace it
by suf2 (memcpy of the first li - l1 bytes, then strcpy of suf2); else NULL. -/
def subsuf (i suf1 suf2 : List Char) : Option (List Char) :=
  if strsuf i suf1 then
    some (i.take (i.length - suf1.length) ++ suf2)
  else
    none

/-- One expansion of the SUF macro (pixz.c:192-198): when the mode of the rule
matches the active operation and subsuf succeeds, return its result; otherwise
fall through to the continuation k, the next rule. -/
def SUF (op ruleOp : pixz_op_t) (i s1 s2 : List Char) (k : Option (List Char)) :
    Option (List Char) :=
  if op = ruleOp then
    match subsuf i s1 s2 with
    | some r => some r
    | none => k
  else k

/-- auto_output from pixz.c:200-207: the ordered suffix-substitution table. -/
def auto_output (op : pixz_op_t) (i : List Char) : Option (List Char) :=
  SUF op OP_READ i ".tar.xz".toList ".tar".toList
    (SUF op OP_READ i ".tpxz".toList ".tar".toList
      (SUF op OP_READ i ".xz".toList []
        (SUF op OP_WRITE i ".tar".toList ".tpxz".toList
          (SUF op OP_WRITE i [] ".xz".toList
            none))))

deriving instance DecidableEq for Except

/-- Whitespace test of the C isspace function in the default locale, used by
strtol and strtod when skipping leading whitespace. -/
def isSpaceC (c : Char) : Bool :=
  c = ' ' || c = '\t' || c = '\n' || c = '\x0b' || c = '\x0c' || c = '\r'

/-- Numeric value of a string of decimal digits, most significant first. -/
def digitsVal (ds : List Char) : Nat :=
  ds.foldl (fun a c => 10 * a + (c.toNat - '0'.toNat)) 0

/-- Model of strtol(arg, &optend, 10) as used in main (pixz.c:97 and 103):
skip whitespace, take an optional single sign, then decimal digits. The result
pairs the value with the unconsumed remainder, the string starting at optend.
When no digit is found no conversion is performed: the value is 0 and the
remainder is the whole input, as strtol then sets the end pointer back to the
start. The value is an unbounded integer; the LONG_MAX and LONG_MIN clamping
of strtol never changes the sign tests or end-pointer tests main performs. -/
def strtol10 (s : List Char) : Int × List Char :=
  let t := s.dropWhile isSpaceC
  let sign : Int := if t.head? = some '-' then -1 else 1
  let u := if t.head? = some '-' || t.head? = some '+' then t.tail else t
  let ds := u.takeWhile Char.isDigit
  if ds = [] then (0, s)
  else (sign * (digitsVal ds : Int), u.dropWhile Char.isDigit)

/-- Model of strtod(arg, &optend) as used for the f flag (pixz.c:91),
restricted to decimal forms: whitespace, an optional sign, digits with an
optional fractional part, and an optional exponent. The value is the exact
rational denoted; IEEE rounding and underflow, hexadecimal forms and the
infinity and nan keywords are not modelled. When no conversion is performed
the value is 0 and the remainder is the whole input; an exponent marker with
no following digit is not consumed, as strtod backtracks to the end of the
mantissa. -/
def strtod_dec (s : List Char) : ℚ × List Char :=
  let t := s.dropWhile isSpaceC
  let sign : ℚ := if t.head? = some '-' then -1 else 1
  let u := if t.head? = some '-' || t.head? = some '+' then t.tail else t
  let ip := u.takeWhile Char.isDigit
  let u1 := u.dropWhile Char.isDigit
  let hasDot := u1.head? = some '.'
  let fp := if hasDot then u1.tail.takeWhile Char.isDigit else []
  let u2 := if hasDot then u1.tail.dropWhile Char.isDigit else u1
  if ip = [] ∧ fp = [] then (0, s)
  else
    let m : ℚ := (digitsVal ip : ℚ) + (digitsVal fp : ℚ) / ((10 : ℚ) ^ fp.length)
    let hasExpMark := u2.head? = some 'e' || u2.head? = some 'E'
    let r := u2.tail
    let esign : Int := if r.head? = some '-' then -1 else 1
    let r1 := if r.head? = some '-' || r.head? = some '+' then r.tail else r
    let eds := r1.takeWhile Char.isDigit
    if hasExpMark ∧ eds ≠ [] then
      (sign * m * (10 : ℚ) ^ (esign * (digitsVal eds : Int)),
        r1.dropWhile Char.isDigit)
    else (sign * m, u2)

/-- LZMA_PRESET_DEFAULT from the public liblzma header, value 6. No claim
depends on this value. -/
def LZMA_PRESET_DEFAULT : Nat := 6

/-- LZMA_PRESET_EXTREME from the public liblzma header: bit 31. -/
def LZMA_PRESET_EXTREME : Nat := 2 ^ 31

/-- The mutable state of the getopt loop of main together with the globals it
assigns: gPipelineProcessMax, gPipelineQSize, gBlockFraction
(pixz.c:66-76 and 90-107). -/
structure OptState where
  op : pixz_op_t
  level : Nat
  tar : Bool
  keep_input : Bool
  extreme : Bool
  ipath : Option (List Char)
  opath : Option (List Char)
  gPipelineProcessMax : Int
  gPipelineQSize : Int
  gBlockFraction : ℚ
deriving DecidableEq

/-- State at the top of main (pixz.c:66-71). The three engine tunables are
globals initialized in a translation unit outside this front end; no claim
depends on their starting values, modelled here as placeholders. -/
def initState : OptState :=
  { op := OP_WRITE, level := LZMA_PRESET_DEFAULT, tar := true,
    keep_input := false, extreme := false, ipath := none, opath := none,
    gPipelineProcessMax := 0, gPipelineQSize := 0, gBlockFraction := 0 }

/-- One option as delivered by getopt for the option string
"dcxli:o:tkvVhp:0123456789f:q:e" (pixz.c:77): a recognized option character
with its argument when it takes one, a digit option, the lowercase v that the
option string accepts but the switch has no case for, or an unrecognized
character (the question mark getopt returns, which reaches the default branch
and is not a digit). -/
inductive CliOpt
  | c
  | d
  | x
  | l
  | t
  | k
  | e
  | h
  | V
  | v
  | i (arg : List Char)
  | o (arg : List Char)
  | p (arg : List Char)
  | q (arg : List Char)
  | f (arg : List Char)
  | digit (n : Fin 10)
  | bad
deriving DecidableEq

/-- Result of one iteration of the getopt switch: continue with a new state,
or leave main through usage(msg) with a non-null msg (exit code 2), through
usage(NULL) from the h flag (exit code 0), or through version() from the V
flag (exit code 0). -/
inductive OptStep
  | ok (s : OptState)
  | usageErr (msg : String)
  | helpExit
  | versionExit
deriving DecidableEq

/-- One iteration of the getopt switch (pixz.c:78-114). -/
def applyOpt (s : OptState) (o : CliOpt) : OptStep :=
  match o with
  | CliOpt.c => OptStep.ok s
  | CliOpt.d => OptStep.ok { s with op := OP_READ }
  | CliOpt.x => OptStep.ok { s with op := OP_EXTRACT }
  | CliOpt.l => OptStep.ok { s with op := OP_LIST }
  | CliOpt.i a => OptStep.ok { s with ipath := some a }
  | CliOpt.o a => OptStep.ok { s with opath := some a }
  | CliOpt.t => OptStep.ok { s with tar := false }
  | CliOpt.k => OptStep.ok { s with keep_input := true }
  | CliOpt.h => OptStep.helpExit
  | CliOpt.e => OptStep.ok { s with extreme := true }
  | CliOpt.V => OptStep.versionExit
  | CliOpt.f a =>
      let vr := strtod_dec a
      if vr.2 ≠ [] ∨ vr.1 ≤ 0 then
        OptStep.usageErr "Need a positive floating-point argument to -f"
      else OptStep.ok { s with gBlockFraction := vr.1 }
  | CliOpt.p a =>
      let vr := strtol10 a
      if vr.1 < 0 ∨ vr.2 ≠ [] then
        OptStep.usageErr "Need a non-negative integer argument to -p"
      else OptStep.ok { s with gPipelineProcessMax := vr.1 }
  | CliOpt.q a =>
      let vr := strtol10 a
      if vr.1 ≤ 0 ∨ vr.2 ≠ [] then
        OptStep.usageErr "Need a positive integer argument to -q"
      else OptStep.ok { s with gPipelineQSize := vr.1 }
  | CliOpt.digit n => OptStep.ok { s with level := n.val }
  | CliOpt.v => OptStep.usageErr ""
  | CliOpt.bad => OptStep.usageErr ""

/-- The getopt while loop (pixz.c:77-115), folded over the option sequence. -/
def parseOpts (s : OptState) : List CliOpt → OptStep
  | [] => OptStep.ok s
  | o :: rest =>
      match applyOpt s o with
      | OptStep.ok s2 => parseOpts s2 rest
      | e => e

/-- Resolved input path, output path and the iremove flag after the positional
argument block of main (pixz.c:119-139). -/
structure ResolvedPaths where
  ipath : Option (List Char)
  opath : Option (List Char)
  iremove : Bool
deriving DecidableEq

/-- Positional-argument handling from pixz.c:119-139. args holds the
positional arguments remaining after getopt. In the single-argument non-List
branch the output path is assigned the auto-derived name regardless of any
path a previous o flag stored. -/
def resolvePaths (s : OptState) (args : List (List Char)) :
    Except String ResolvedPaths :=
  if s.op = OP_EXTRACT ∨ args = [] then
    Except.ok ⟨s.ipath, s.opath, false⟩
  else if 2 < args.length ∨ (s.op = OP_LIST ∧ args.length = 2) then
    Except.error "Too many arguments"
  else if s.ipath.isSome then
    Except.error "Multiple input files specified"
  else
    match args with
    | a0 :: a1 :: _ =>
        if s.opath.isSome then
          Except.error "Multiple output files specified"
        else Except.ok ⟨some a0, some a1, false⟩
    | [a0] =>
        if s.op = OP_LIST then Except.ok ⟨some a0, s.opath, false⟩
        else
          match auto_output s.op a0 with
          | none => Except.error "Unknown suffix"
          | some o2 => Except.ok ⟨some a0, some o2, true⟩
    | [] => Except.ok ⟨s.ipath, s.opath, false⟩

/-- How the output stream is provisioned: standard output as-is, fopen with
the umask-governed default permissions, or open(opath, O_CREAT | O_WRONLY,
mode) recording the mode argument passed. -/
inductive OutputOpen
  | stdout_stream
  | fopen_w (path : List Char)
  | open_creat (path : List Char) (mode : Nat)
deriving DecidableEq

/-- Output-stream provisioning from pixz.c:144-165. On every path that
reaches this point without dying, gInFile is stdin exactly when no input path
was given, so the stdin test on line 145 is modelled by ipath being none.
inputStatMode is the st_mode value stat reports for the named input file. -/
def provisionOutput (rp : ResolvedPaths) (inputStatMode : Nat) : OutputOpen :=
  match rp.opath with
  | none => OutputOpen.stdout_stream
  | some o =>
      match rp.ipath with
      | none => OutputOpen.fopen_w o
      | some _ => OutputOpen.open_creat o inputStatMode

/-- The engine entry point invoked by the dispatch switch (pixz.c:173-184). -/
inductive Dispatch
  | write (tar : Bool) (level : Nat)
  | read (tar : Bool) (members : List (List Char))
  | list (tar : Bool)
deriving DecidableEq

/-- Operation dispatch from pixz.c:173-184. tty models
isatty(fileno(gOutFile)). OP_READ passes an empty member list, from
pixz_read(tar, 0, NULL); OP_EXTRACT passes every remaining positional
argument, from pixz_read(tar, argc, argv). -/
def dispatch (s : OptState) (args : List (List Char)) (tty : Bool) :
    Except String Dispatch :=
  match s.op with
  | OP_WRITE =>
      if tty then Except.error "Refusing to output to a TTY"
      else
        Except.ok (Dispatch.write s.tar
          (if s.extreme then s.level ||| LZMA_PRESET_EXTREME else s.level))
  | OP_READ => Except.ok (Dispatch.read s.tar [])
  | OP_EXTRACT => Except.ok (Dispatch.read s.tar args)
  | OP_LIST => Except.ok (Dispatch.list s.tar)

/-- Cleanup from pixz.c:186-187: the input file is unlinked exactly when
iremove was set and the k flag was not passed. Returns whether the input is
removed. -/
def cleanup (rp : ResolvedPaths) (keep_input : Bool) : Bool :=
  rp.iremove && !keep_input

/-- Outcome of a run of main in which every file open succeeds. -/
inductive RunOutcome
  | usageError (msg : String)
  | help
  | version
  | success (d : Dispatch) (rp : ResolvedPaths) (removeInput : Bool)
deriving DecidableEq

/-- Exit code of the usage function (pixz.c:18-58): exit(2) when a message was
given, exit(0) when called with NULL from the h flag. -/
def usage_exitCode (msg : Option String) : Nat :=
  if msg.isSome then 2 else 0

/-- Process exit code for each outcome: usage errors leave through
usage(msg), help through usage(NULL), version through the exit(0) in version()
(pixz.c:62), and a completed run through the return 0 of main (pixz.c:189). -/
def exitCode : RunOutcome → Nat
  | RunOutcome.usageError m => usage_exitCode (some m)
  | RunOutcome.help => usage_exitCode none
  | RunOutcome.version => 0
  | RunOutcome.success _ _ _ => 0

/-- End-to-end model of main for runs in which every file open succeeds;
fopen and open failures call die and abort with an unspecified nonzero code
outside this model. opts is the getopt-delivered option sequence, args the
remaining positional arguments, tty whether the final output stream is an
interactive terminal. -/
def run (opts : List CliOpt) (args : List (List Char)) (tty : Bool) :
    RunOutcome :=
  match parseOpts initState opts with
  | OptStep.usageErr m => RunOutcome.usageError m
  | OptStep.helpExit => RunOutcome.help
  | OptStep.versionExit => RunOutcome.version
  | OptStep.ok s =>
      match resolvePaths s args with
      | Except.error m => RunOutcome.usageError m
      | Except.ok rp =>
          match dispatch s args tty with
          | Except.error m => RunOutcome.usageError m
          | Except.ok d => RunOutcome.success d rp (cleanup rp s.keep_input)

/-- The operation mode an option selects, if any (cases d, x, l of the getopt
switch). -/
def modeOf : CliOpt → Option pixz_op_t
  | CliOpt.d => some OP_READ
  | CliOpt.x => some OP_EXTRACT
  | CliOpt.l => some OP_LIST
  | _ => none

/-- The compression level an option selects, if any (the digit cases of the
getopt switch). -/
def levelOf : CliOpt → Option Nat
  | CliOpt.digit n => some n.val
  | _ => none

/-- Options whose switch case neither leaves main nor can fail: everything
except h, V, v, p, q, f and unrecognized characters. -/
def benign : CliOpt → Bool
  | CliOpt.c | CliOpt.d | CliOpt.x | CliOpt.l | CliOpt.t | CliOpt.k
  | CliOpt.e | CliOpt.i _ | CliOpt.o _ | CliOpt.digit _ => true
  | _ => false

theorem strsuf_eq_decide_suffix (big small : List Char) :
    strsuf big small = decide (small <:+ big) := by
  simp only [strsuf, decide_eq_decide]
  rw [List.suffix_iff_eq_drop]
  exact eq_comm

theorem strsuf_append (g s : List Char) : strsuf (g ++ s) s = true := by
  rw [strsuf_eq_decide_suffix]
  exact decide_eq_true (List.suffix_append g s)

theorem subsuf_append (g s1 s2 : List Char) :
    subsuf (g ++ s1) s1 s2 = some (g ++ s2) := by
  simp [subsuf, strsuf_append, List.length_append, List.take_left]

theorem subsuf_of_not_suffix (i s1 s2 : List Char) (h : ¬ s1 <:+ i) :
    subsuf i s1 s2 = none := by
  simp [subsuf, strsuf_eq_decide_suffix, h]

theorem subsuf_nil (i s2 : List Char) : subsuf i [] s2 = some (i ++ s2) := by
  simp [subsuf, strsuf]

/-- C2: FilenameResolver in Read mode evaluates the rules in table order and
returns the first match: a name ending in .tar.xz has that suffix stripped and
.tar appended; else a name ending in .tpxz has it stripped and .tar appended;
else a name ending in .xz has it stripped with nothing appended; a name with
none of the three suffixes fails resolution, and main then reports the
Unknown suffix usage error. -/
theorem read_mode_resolution (f : List Char) :
    (∀ g, f = g ++ ".tar.xz".toList →
      auto_output OP_READ f = some (g ++ ".tar".toList)) ∧
    (¬ ".tar.xz".toList <:+ f →
      ∀ g, f = g ++ ".tpxz".toList →
        auto_output OP_READ f = some (g ++ ".tar".toList)) ∧
    (¬ ".tar.xz".toList <:+ f → ¬ ".tpxz".toList <:+ f →
      ∀ g, f = g ++ ".xz".toList → auto_output OP_READ f = some g) ∧
    (¬ ".tar.xz".toList <:+ f → ¬ ".tpxz".toList <:+ f → ¬ ".xz".toList <:+ f →
      auto_output OP_READ f = none) ∧
    (¬ ".tar.xz".toList <:+ f → ¬ ".tpxz".toList <:+ f → ¬ ".xz".toList <:+ f →
      ∀ s : OptState, s.op = OP_READ → s.ipath = none →
        resolvePaths s [f] = Except.error "Unknown suffix") := by
  have c4 : ¬ ".tar.xz".toList <:+ f → ¬ ".tpxz".toList <:+ f →
      ¬ ".xz".toList <:+ f → auto_output OP_READ f = none := by
    intro h1 h2 h3
    have h1l : ¬ ['.', 't', 'a', 'r', '.', 'x', 'z'] <:+ f := h1
    have h2l : ¬ ['.', 't', 'p', 'x', 'z'] <:+ f := h2
    have h3l : ¬ ['.', 'x', 'z'] <:+ f := h3
    simp [auto_output, SUF, subsuf_of_not_suffix _ _ _ h1l,
      subsuf_of_not_suffix _ _ _ h2l, subsuf_of_not_suffix _ _ _ h3l]
  refine ⟨?_, ?_, ?_, c4, ?_⟩
  · rintro g rfl
    simp [auto_output, SUF, subsuf_append]
  · intro h1
    rintro g rfl
    have h1l : ¬ ['.', 't', 'a', 'r', '.', 'x', 'z'] <:+
        g ++ ['.', 't', 'p', 'x', 'z'] := h1
    simp [auto_output, SUF, subsuf_of_not_suffix _ _ _ h1l, subsuf_append]
  · intro h1 h2
    rintro g rfl
    have h1l : ¬ ['.', 't', 'a', 'r', '.', 'x', 'z'] <:+ g ++ ['.', 'x', 'z'] := h1
    have h2l : ¬ ['.', 't', 'p', 'x', 'z'] <:+ g ++ ['.', 'x', 'z'] := h2
    simp [auto_output, SUF, subsuf_of_not_suffix _ _ _ h1l,
      subsuf_of_not_suffix _ _ _ h2l, subsuf_append]
  · intro h1 h2 h3 s hop hip
    simp [resolvePaths, hop, hip, c4 h1 h2 h3]

theorem read_mode_resolution_witness :
    auto_output OP_READ "archive.tar.xz".toList = some "archive.tar".toList ∧
    auto_output OP_READ "data.tpxz".toList = some "data.tar".toList ∧
    auto_output OP_READ "file.xz".toList = some "file".toList ∧
    auto_output OP_READ "notes.txt".toList = none ∧
    resolvePaths { initState with op := OP_READ } ["notes.txt".toList] =
      Except.error "Unknown suffix" := by
  refine ⟨?_, ?_, ?_, ?_, ?_⟩
  · have h := (read_mode_resolution "archive.tar.xz".toList).1
      "archive".toList (by decide)
    exact h.trans (by decide)
  · have h := (read_mode_resolution "data.tpxz".toList).2.1
      (by decide) "data".toList (by decide)
    exact h.trans (by decide)
  · have h := (read_mode_resolution "file.xz".toList).2.2.1
      (by decide) (by decide) "file".toList (by decide)
    exact h.trans (by decide)
  · exact (read_mode_resolution "notes.txt".toList).2.2.2.1
      (by decide) (by decide) (by decide)
  · exact (read_mode_resolution "notes.txt".toList).2.2.2.2
      (by decide) (by decide) (by decide) { initState with op := OP_READ }
      rfl rfl

/-- C3: FilenameResolver in Write mode never fails: a name ending in .tar has
.tar stripped and .tpxz appended, any other name gets .xz appended. -/
theorem write_mode_resolution (f : List Char) :
    (∀ g, f = g ++ ".tar".toList →
      auto_output OP_WRITE f = some (g ++ ".tpxz".toList)) ∧
    (¬ ".tar".toList <:+ f →
      auto_output OP_WRITE f = some (f ++ ".xz".toList)) ∧
    (auto_output OP_WRITE f).isSome = true := by
  have base : ∀ g, f = g ++ ".tar".toList →
      auto_output OP_WRITE f = some (g ++ ".tpxz".toList) := by
    rintro g rfl
    simp [auto_output, SUF, subsuf_append]
  have other : ¬ ".tar".toList <:+ f →
      auto_output OP_WRITE f = some (f ++ ".xz".toList) := by
    intro h1
    have h1l : ¬ ['.', 't', 'a', 'r'] <:+ f := h1
    simp [auto_output, SUF, subsuf_of_not_suffix _ _ _ h1l, subsuf_nil]
  refine ⟨base, other, ?_⟩
  by_cases h : ".tar".toList <:+ f
  · obtain ⟨g, hg⟩ := h
    rw [base g hg.symm]
    rfl
  · rw [other h]
    rfl

theorem write_mode_resolution_witness :
    auto_output OP_WRITE "project.tar".toList = some "project.tpxz".toList ∧
    auto_output OP_WRITE "readme".toList = some "readme.xz".toList := by
  constructor
  · have h := (write_mode_resolution "project.tar".toList).1
      "project".toList (by decide)
    exact h.trans (by decide)
  · have h := (write_mode_resolution "readme".toList).2.1 (by decide)
    exact h.trans (by decide)

/-- C8 counterexample: in Read mode resolution on the one-character filename a,
rule 1 calls strsuf with small = .tar.xz, and the strcmp starts reading six
bytes before the start of big, outside its bounds. -/
theorem strsuf_oob_counterexample :
    strsuf_inBounds "a".toList ".tar.xz".toList = false ∧
    strsuf_firstReadOffset "a".toList ".tar.xz".toList = -6 := by
  decide

/-- C8 (amended): the strcmp in strsuf stays within the buffer of big exactly
when small is no longer than big; when small is longer, the first byte read
lies strictly before the buffer. -/
theorem strsuf_inBounds_iff (big small : List Char) :
    strsuf_inBounds big small = true ↔ small.length ≤ big.length := by
  simp [strsuf_inBounds, strsuf_firstReadOffset, sub_nonneg]

/-- C10: in Read mode the filename .xz resolves successfully to the empty
output name: rule 3 strips the whole name and appends nothing, no unknown
suffix error is raised, and the run proceeds toward opening an output file
with the empty name. -/
theorem dotxz_resolves_to_empty :
    auto_output OP_READ ".xz".toList = some [] ∧
    resolvePaths { initState with op := OP_READ } [".xz".toList] =
      Except.ok ⟨some ".xz".toList, some [], true⟩ ∧
    provisionOutput ⟨some ".xz".toList, some [], true⟩ 420 =
      OutputOpen.open_creat [] 420 := by
  decide

/-- C5: in Extract mode the positional block of main is skipped entirely, so
any number of positional arguments is accepted without a too-many-arguments
error, none is consumed as an input or output path, and exactly the remaining
positional list is handed to the external read entry point. -/
theorem extract_positionals (s : OptState) (args : List (List Char))
    (tty : Bool) (h : s.op = OP_EXTRACT) :
    resolvePaths s args = Except.ok ⟨s.ipath, s.opath, false⟩ ∧
    dispatch s args tty = Except.ok (Dispatch.read s.tar args) := by
  constructor
  · simp [resolvePaths, h]
  · simp [dispatch, h]

theorem extract_positionals_witness :
    resolvePaths { initState with op := OP_EXTRACT }
        ["a".toList, "b".toList, "c".toList] =
      Except.ok ⟨none, none, false⟩ ∧
    dispatch { initState with op := OP_EXTRACT }
        ["a".toList, "b".toList, "c".toList] false =
      Except.ok (Dispatch.read true ["a".toList, "b".toList, "c".toList]) :=
  extract_positionals { initState with op := OP_EXTRACT }
    ["a".toList, "b".toList, "c".toList] false rfl

/-- C4: whenever the input is a named file and an output file is created, the
output is opened through open(opath, O_CREAT | O_WRONLY, mode) with exactly
the permission-mode bits stat reported for the input file. -/
theorem named_input_mode_preserved (rp : ResolvedPaths) (mode : Nat)
    (i o : List Char) (hi : rp.ipath = some i) (ho : rp.opath = some o) :
    provisionOutput rp mode = OutputOpen.open_creat o mode := by
  simp [provisionOutput, hi, ho]

theorem named_input_mode_preserved_witness :
    provisionOutput ⟨some "file".toList, some "file.xz".toList, true⟩ 420 =
      OutputOpen.open_creat "file.xz".toList 420 :=
  named_input_mode_preserved ⟨some "file".toList, some "file.xz".toList, true⟩
    420 "file".toList "file.xz".toList rfl rfl

/-- C6: the process exit code is 0 for normal completion, help display and
version display, and 2 for every usage error. -/
theorem exit_code_policy (opts : List CliOpt) (args : List (List Char))
    (tty : Bool) :
    (∀ m, run opts args tty = RunOutcome.usageError m →
      exitCode (run opts args tty) = 2) ∧
    (run opts args tty = RunOutcome.help → exitCode (run opts args tty) = 0) ∧
    (run opts args tty = RunOutcome.version →
      exitCode (run opts args tty) = 0) ∧
    (∀ d rp rem, run opts args tty = RunOutcome.success d rp rem →
      exitCode (run opts args tty) = 0) := by
  refine ⟨?_, ?_, ?_, ?_⟩
  · intro m h
    rw [h]
    rfl
  · intro h
    rw [h]
    rfl
  · intro h
    rw [h]
    rfl
  · intro d rp rem h
    rw [h]
    rfl

theorem exit_code_policy_witness :
    exitCode (run [CliOpt.bad] [] false) = 2 ∧
    exitCode (run [] [] true) = 2 ∧
    exitCode (run [CliOpt.d] ["notes.txt".toList] false) = 2 ∧
    exitCode (run [CliOpt.h] [] false) = 0 ∧
    exitCode (run [CliOpt.V] [] false) = 0 ∧
    exitCode (run [] [] false) = 0 :=
  ⟨(exit_code_policy [CliOpt.bad] [] false).1 "" (by decide),
   (exit_code_policy [] [] true).1 "Refusing to output to a TTY" (by decide),
   (exit_code_policy [CliOpt.d] ["notes.txt".toList] false).1 "Unknown suffix"
     (by decide),
   (exit_code_policy [CliOpt.h] [] false).2.1 (by decide),
   (exit_code_policy [CliOpt.V] [] false).2.2.1 (by decide),
   (exit_code_policy [] [] false).2.2.2 (Dispatch.write true LZMA_PRESET_DEFAULT)
     ⟨none, none, false⟩ false (by decide)⟩

/-- C1 counterexample: pixz -o out in, Write mode with one positional
argument. The run completes, but the output path supplied through the o flag
is discarded in favour of the auto-derived name in.xz, and the input file is
slated for deletion even though the user supplied an output path. -/
theorem o_flag_overridden_counterexample :
    run [CliOpt.o "out".toList] ["in".toList] false =
      RunOutcome.success (Dispatch.write true LZMA_PRESET_DEFAULT)
        ⟨some "in".toList, some "in.xz".toList, true⟩ true := by
  decide

/-- C1 (amended): whenever the positional block succeeds, the input file is
removed exactly when the mode is neither Extract nor List, exactly one
positional argument was given, and the k flag is absent — whether or not an
output path was supplied with the o flag. In that single-positional case the
resolved output is always the auto-derived name, discarding any path stored by
a previous o flag, and iremove is set. -/
theorem autoremove_characterization (s : OptState) (args : List (List Char))
    (rp : ResolvedPaths) (h : resolvePaths s args = Except.ok rp) :
    (cleanup rp s.keep_input = true ↔
      (s.op ≠ OP_EXTRACT ∧ s.op ≠ OP_LIST ∧ args.length = 1 ∧
        s.keep_input = false)) ∧
    (∀ a, args = [a] → s.op ≠ OP_EXTRACT → s.op ≠ OP_LIST →
      rp.opath = auto_output s.op a ∧ rp.iremove = true) := by
  by_cases hE : s.op = OP_EXTRACT ∨ args = []
  · rw [resolvePaths.eq_def, if_pos hE] at h
    obtain rfl : (⟨s.ipath, s.opath, false⟩ : ResolvedPaths) = rp :=
      Except.ok.inj h
    rcases hE with hE | hE
    · constructor
      · simp [cleanup, hE]
      · intro a ha h2 h3
        exact absurd hE h2
    · subst hE
      constructor
      · simp [cleanup]
      · intro a ha
        simp at ha
  · rw [resolvePaths.eq_def, if_neg hE] at h
    push_neg at hE
    obtain ⟨hnE, hne⟩ := hE
    by_cases hT : 2 < args.length ∨ (s.op = OP_LIST ∧ args.length = 2)
    · rw [if_pos hT] at h
      simp at h
    rw [if_neg hT] at h
    by_cases hI : s.ipath.isSome = true
    · rw [if_pos hI] at h
      simp at h
    rw [if_neg hI] at h
    match args, hne with
    | [], hne => exact absurd rfl hne
    | [a0], _ =>
      replace h : (if s.op = OP_LIST then
          Except.ok (⟨some a0, s.opath, false⟩ : ResolvedPaths)
        else
          match auto_output s.op a0 with
          | none => Except.error "Unknown suffix"
          | some o2 => Except.ok ⟨some a0, some o2, true⟩) = Except.ok rp := h
      by_cases hL : s.op = OP_LIST
      · rw [if_pos hL] at h
        obtain rfl : (⟨some a0, s.opath, false⟩ : ResolvedPaths) = rp :=
          Except.ok.inj h
        constructor
        · simp [cleanup, hL]
        · intro a ha h2 h3
          exact absurd hL h3
      · rw [if_neg hL] at h
        rcases hauto : auto_output s.op a0 with _ | o2 <;> rw [hauto] at h
        · simp at h
        · obtain rfl : (⟨some a0, some o2, true⟩ : ResolvedPaths) = rp :=
            Except.ok.inj h
          constructor
          · simp [cleanup, hnE, hL]
          · intro a ha h2 h3
            obtain rfl : a0 = a := by simpa using ha
            exact ⟨hauto.symm, rfl⟩
    | a0 :: a1 :: rest, _ =>
      replace h : (if s.opath.isSome = true then
          (Except.error "Multiple output files specified" :
            Except String ResolvedPaths)
        else Except.ok ⟨some a0, some a1, false⟩) = Except.ok rp := h
      by_cases hO : s.opath.isSome = true
      · rw [if_pos hO] at h
        simp at h
      · rw [if_neg hO] at h
        obtain rfl : (⟨some a0, some a1, false⟩ : ResolvedPaths) = rp :=
          Except.ok.inj h
        constructor
        · simp [cleanup]
        · intro a ha
          simp at ha

theorem autoremove_characterization_witness :
    cleanup ⟨some "in".toList, some "in.xz".toList, true⟩ false = true ∧
    (⟨some "in".toList, some "in.xz".toList, true⟩ : ResolvedPaths).opath =
      auto_output OP_WRITE "in".toList := by
  have h := autoremove_characterization
    { initState with opath := some "out".toList } ["in".toList]
    ⟨some "in".toList, some "in.xz".toList, true⟩ (by decide)
  refine ⟨h.1.mpr ⟨by decide, by decide, rfl, rfl⟩, ?_⟩
  exact (h.2 "in".toList rfl (by decide) (by decide)).1

/-- C7 counterexample: the empty string is not a numeral, yet -p with an
empty argument is accepted: strtol performs no conversion, reports value 0
with the end pointer at the start of the (empty) string, so the trailing-junk
test sees the terminating NUL and the thread bound is set to 0 without a
UsageError. -/
theorem p_empty_accepted_counterexample :
    strtol10 [] = (0, []) ∧
    applyOpt { initState with gPipelineProcessMax := 7 } (CliOpt.p []) =
      OptStep.ok { initState with gPipelineProcessMax := 0 } := by
  decide

theorem strtol10_digits (a : List Char) (h0 : a ≠ [])
    (h : ∀ c ∈ a, c.isDigit = true) :
    strtol10 a = ((digitsVal a : Int), []) := by
  obtain ⟨c, rest, rfl⟩ := List.exists_cons_of_ne_nil h0
  have hc : c.isDigit = true := h c (List.mem_cons_self c rest)
  have hsp : isSpaceC c = false := by
    by_contra hcon
    rw [Bool.not_eq_false] at hcon
    rcases (by simpa [isSpaceC] using hcon :
        ((((c = ' ' ∨ c = '\t') ∨ c = '\n') ∨ c = '\x0b') ∨ c = '\x0c') ∨
          c = '\r') with
      ((((rfl | rfl) | rfl) | rfl) | rfl) | rfl <;> exact absurd hc (by decide)
  have hm : c ≠ '-' := fun e => absurd (e ▸ hc) (by decide)
  have hp : c ≠ '+' := fun e => absurd (e ▸ hc) (by decide)
  have hdw : (c :: rest).dropWhile isSpaceC = c :: rest := by
    simp [List.dropWhile_cons, hsp]
  have htw : (c :: rest).takeWhile Char.isDigit = c :: rest :=
    List.takeWhile_eq_self_iff.mpr h
  have hdd : (c :: rest).dropWhile Char.isDigit = [] := by
    have hlen := congrArg List.length
      (List.takeWhile_append_dropWhile (p := Char.isDigit) (l := c :: rest))
    rw [htw] at hlen
    simp only [List.length_append] at hlen
    exact List.eq_nil_of_length_eq_zero (by omega)
  simp [strtol10, hdw, htw, hdd, hm, hp]

/-- C7 (amended): -p is rejected exactly when strtol leaves unconsumed
characters or parses a negative value, -q exactly when unconsumed characters
remain or the value is not positive, and -f exactly when strtod leaves
unconsumed characters or the parsed value is not positive; a nonempty
all-digit argument to -p is accepted with its decimal value, but the empty
argument — although it is not an integer numeral — is also accepted, as 0. -/
theorem tuning_flag_validation (s : OptState) (a : List Char) :
    ((∃ m, applyOpt s (CliOpt.p a) = OptStep.usageErr m) ↔
      ((strtol10 a).1 < 0 ∨ (strtol10 a).2 ≠ [])) ∧
    ((∃ m, applyOpt s (CliOpt.q a) = OptStep.usageErr m) ↔
      ((strtol10 a).1 ≤ 0 ∨ (strtol10 a).2 ≠ [])) ∧
    ((∃ m, applyOpt s (CliOpt.f a) = OptStep.usageErr m) ↔
      ((strtod_dec a).2 ≠ [] ∨ (strtod_dec a).1 ≤ 0)) ∧
    (a ≠ [] → (∀ c ∈ a, c.isDigit = true) →
      applyOpt s (CliOpt.p a) =
        OptStep.ok { s with gPipelineProcessMax := (digitsVal a : Int) }) := by
  refine ⟨?_, ?_, ?_, ?_⟩
  · by_cases hc : (strtol10 a).1 < 0 ∨ (strtol10 a).2 ≠ [] <;>
      simp [applyOpt, hc]
  · by_cases hc : (strtol10 a).1 ≤ 0 ∨ (strtol10 a).2 ≠ [] <;>
      simp [applyOpt, hc]
  · by_cases hc : (strtod_dec a).2 ≠ [] ∨ (strtod_dec a).1 ≤ 0 <;>
      simp [applyOpt, hc]
  · intro h0 h
    have hd := strtol10_digits a h0 h
    have hnn : ¬ ((digitsVal a : Int) < 0) := not_lt.mpr (Int.natCast_nonneg _)
    simp [applyOpt, hd, hnn]

theorem tuning_flag_validation_witness :
    applyOpt initState (CliOpt.p "12".toList) =
      OptStep.ok { initState with gPipelineProcessMax := 12 } ∧
    (∃ m, applyOpt initState (CliOpt.q "0".toList) = OptStep.usageErr m) ∧
    (∃ m, applyOpt initState (CliOpt.f "1.5x".toList) = OptStep.usageErr m) := by
  refine ⟨?_, ?_, ?_⟩
  · have h := (tuning_flag_validation initState "12".toList).2.2.2
      (by decide) (by decide)
    exact h.trans (by decide)
  · exact (tuning_flag_validation initState "0".toList).2.1.mpr (by decide)
  · exact (tuning_flag_validation initState "1.5x".toList).2.2.1.mpr (by decide)

theorem applyOpt_benign (s : OptState) (o : CliOpt) (hb : benign o = true) :
    ∃ s2, applyOpt s o = OptStep.ok s2 ∧
      s2.op = (modeOf o).getD s.op ∧ s2.level = (levelOf o).getD s.level := by
  cases o <;> simp_all [benign, applyOpt, modeOf, levelOf]

theorem parseOpts_last_wins (s : OptState) (opts : List CliOpt)
    (h : ∀ o ∈ opts, benign o = true) :
    ∃ s2, parseOpts s opts = OptStep.ok s2 ∧
      s2.op = (opts.filterMap modeOf).getLastD s.op ∧
      s2.level = (opts.filterMap levelOf).getLastD s.level := by
  revert h
  induction opts generalizing s with
  | nil => exact fun _ => ⟨s, rfl, rfl, rfl⟩
  | cons o rest ih =>
    intro h
    have hb : benign o = true := h o (List.mem_cons_self o rest)
    have hrest : ∀ y ∈ rest, benign y = true :=
      fun y hy => h y (List.mem_cons_of_mem o hy)
    obtain ⟨s1, ha, hop, hlev⟩ := applyOpt_benign s o hb
    obtain ⟨s2, h1, h2, h3⟩ := ih s1 hrest
    refine ⟨s2, ?_, ?_, ?_⟩
    · rw [parseOpts, ha]
      exact h1
    · rw [h2, hop]
      cases ho : modeOf o with
      | none =>
        simp only [List.filterMap_cons, ho, Option.getD_none]
      | some m =>
        simp only [List.filterMap_cons, ho, Option.getD_some, List.getLastD_cons]
    · rw [h3, hlev]
      cases ho : levelOf o with
      | none =>
        simp only [List.filterMap_cons, ho, Option.getD_none]
      | some m =>
        simp only [List.filterMap_cons, ho, Option.getD_some, List.getLastD_cons]

/-- C9: for an argument list of flags that neither terminate main nor can
fail — in particular any mixture of the mode flags d, x, l and the digit
flags — no error is raised, the operation mode is the one selected by the
last mode flag (the default Write if there is none), and the level is the one
selected by the last digit flag (the default preset if there is none). -/
theorem last_mode_flag_wins (opts : List CliOpt)
    (h : ∀ o ∈ opts, benign o = true) :
    ∃ s2, parseOpts initState opts = OptStep.ok s2 ∧
      s2.op = (opts.filterMap modeOf).getLastD OP_WRITE ∧
      s2.level = (opts.filterMap levelOf).getLastD LZMA_PRESET_DEFAULT :=
  parseOpts_last_wins initState opts h

theorem last_mode_flag_wins_witness :
    ∃ s2, parseOpts initState
        [CliOpt.d, CliOpt.digit 3, CliOpt.x, CliOpt.l, CliOpt.digit 9] =
        OptStep.ok s2 ∧ s2.op = OP_LIST ∧ s2.level = 9 := by
  obtain ⟨s2, h1, h2, h3⟩ := last_mode_flag_wins
    [CliOpt.d, CliOpt.digit 3, CliOpt.x, CliOpt.l, CliOpt.digit 9] (by decide)
  refine ⟨s2, h1, ?_, ?_⟩
  · rw [h2]
    decide
  · rw [h3]
    decide

end Pixz
